import Mathlib

/-!
Shallow embedding of `src/app/page.js` (EdgeScan Contours, a Next.js page
that runs an OpenCV.js contour-detection pipeline) together with proofs
about the claims of the specification.

Modelling conventions, fixed once for the whole file:

* Library-owned pixel buffers (`cv.Mat`, `cv.MatVector`) are modelled by
  natural-number identifiers.  A pipeline run threads a state `St` holding
  the next fresh identifier, the list of currently live identifiers, the
  trace of allocation/release events, and a counter of vision-library
  calls.  JavaScript exceptions are modelled with `Except`: a thrown error
  carries the state at the throw point (so the trace survives into the
  `catch` handler, which in the source releases nothing) plus a message.
* Free functions of the vision library (`cv.imread`, `cv.resize`,
  `cv.cvtColor`, `cv.GaussianBlur`, `cv.Canny`, `cv.findContours`,
  `cv.drawContours`, `cv.circle`, `cv.imshow`) may throw; this is driven
  by the `failAt : Option Nat` field of the state, naming the index of the
  library call that fails (`none` = no library failure).  Method calls on
  wrapped objects (`clone`, `size`, `get`, `intPtr`, `delete`) follow the
  emscripten-embind behaviour: they throw "Cannot pass deleted object as a
  pointer" when invoked on an object whose `delete()` already ran.
* The contour list produced by `cv.findContours` lives inside the opaque
  library, so the pipeline is parametrised by `sizes : List Nat`, the
  vertex counts of the contours the extraction stage finds.
* JavaScript numbers entering arithmetic (`Number(step)`, the scale
  computation of `downscaleIfNeeded`) are modelled by `Int` resp. `ℚ`;
  `Math.round` is `round : ℚ → ℤ`, which is `⌊x + 1/2⌋` exactly as in JS.
-/

/-- Effective sampling stride: `const stride = Math.max(1, Number(step));`
(page.js line 95).  `step` is the slider value, numerically an integer. -/
def strideOf (step : Int) : Nat := (max 1 step).toNat

/-- The effective stride is at least 1 (a definition producing the proof
term used by the loop embeddings below). -/
def strideOf_pos (step : Int) : 1 ≤ strideOf step := by
  unfold strideOf
  rcases le_total (1 : Int) step with h | h
  · rw [max_eq_right h]; omega
  · rw [max_eq_left h]; simp

/-- The per-contour marker loop of `runContours` (page.js lines 100-107):

    let plotted = 0;
    for (let j = 0; j < cnt.rows; j += stride) {
      if (plotted++ > MAX_PLOT_POINTS) break;
      const x = cnt.intPtr(j, 0)[0];
      const y = cnt.intPtr(j, 0)[1];
      cv.circle(dst, new cv.Point(x, y), 2, new cv.Scalar(255,0,0,255), -1);
    }

with `MAX_PLOT_POINTS = 3000`.  The result lists, in order, every index
`j` at which the loop body was entered, paired with `true` when a marker
was drawn at that index and `false` when the cap check broke out instead
(the post-increment `plotted++ > 3000` tests the old value, then
increments).  The loop is only ever run with `stride = Math.max(1, ...)`,
whence the hypothesis `hs`. -/
def plotGo (rows stride : Nat) (hs : 1 ≤ stride) (j plotted : Nat) :
    List (Nat × Bool) :=
  if _h : j < rows then
    if 3000 < plotted then [(j, false)]
    else (j, true) :: plotGo rows stride hs (j + stride) (plotted + 1)
  else []
termination_by rows - j
decreasing_by omega

/-- The marker loop for a contour with `rows` vertices at slider value
`step`, started (as in the source) at `j = 0`, `plotted = 0`. -/
def plotList (rows : Nat) (step : Int) : List (Nat × Bool) :=
  plotGo rows (strideOf step) (strideOf_pos step) 0 0

/-- Indices at which the loop drew a marker. -/
def plotDrawn (rows : Nat) (step : Int) : List Nat :=
  ((plotList rows step).filter (fun p => p.2)).map (fun p => p.1)

/-- Number of markers drawn for one contour. -/
def markerCount (rows : Nat) (step : Int) : Nat := (plotDrawn rows step).length

/-- Number of iterations of the marker loop (loop-body entries). -/
def iterCount (rows : Nat) (step : Int) : Nat := (plotList rows step).length

/-- Ceiling division, the closed form of the number of multiples of
`b` below `a` (a derived quantity used to state loop lemmas). -/
def divCeil (a b : Nat) : Nat := (a + b - 1) / b

/-- Allocation/release event on a library-owned buffer. -/
inductive Ev
  | alloc (id : Nat)
  | release (id : Nat)
deriving DecidableEq, Repr

/-- State threaded through one pipeline invocation: fresh-identifier
supply, currently live buffers, the event trace, a counter of
vision-library calls, and the index (if any) of the library call that is
going to throw. -/
structure St where
  nextId : Nat
  live : List Nat
  trace : List Ev
  callNo : Nat
  failAt : Option Nat
deriving DecidableEq, Repr

/-- A thrown JavaScript error: the state at the throw point (the `catch`
block of the source releases nothing, so the trace survives) and the
`err.message` string. -/
abbrev Err := St × String

/-- Computation of the pipeline body: state transformer with exceptions. -/
abbrev M (α : Type) := St → Except Err (α × St)

def mret {α : Type} (a : α) : M α := fun s => Except.ok (a, s)

def mbind {α β : Type} (m : M α) (f : α → M β) : M β := fun s =>
  match m s with
  | Except.error e => Except.error e
  | Except.ok (a, s1) => f a s1

/-- Message of the emscripten-embind error raised by a method call on an
object whose `delete()` already ran. -/
def embindMsg : String := "Cannot pass deleted object as a pointer"

/-- Message standing for whatever `err.message` a failing vision-library
call produces. -/
def cvErrMsg : String := "cv error"

/-- Allocation of a fresh library buffer (`new cv.Mat()`,
`new cv.MatVector()`, or the buffer `cv.imread` / `clone` returns). -/
def allocId : M Nat := fun s =>
  Except.ok (s.nextId,
    { s with nextId := s.nextId + 1,
             live := s.nextId :: s.live,
             trace := s.trace ++ [Ev.alloc s.nextId] })

/-- The `delete()` method: releases a live buffer, throws the embind
error on an already-deleted one. -/
def deleteBuf (id : Nat) : M Unit := fun s =>
  if id ∈ s.live then
    Except.ok ((), { s with live := s.live.erase id,
                            trace := s.trace ++ [Ev.release id] })
  else Except.error (s, embindMsg)

/-- Guard shared by every method call on a wrapped object (`size`, `get`,
`intPtr`): succeeds on a live buffer, throws the embind error otherwise. -/
def requireLive (id : Nat) : M Unit := fun s =>
  if id ∈ s.live then Except.ok ((), s) else Except.error (s, embindMsg)

/-- One call of a free function of the vision library.  The call indexed
by `failAt` throws; every other call succeeds. -/
def cvCall : M Unit := fun s =>
  if s.failAt = some s.callNo then
    Except.error ({ s with callNo := s.callNo + 1 }, cvErrMsg)
  else Except.ok ((), { s with callNo := s.callNo + 1 })

/-- A wrapped `cv.Mat`: its buffer identifier and its dimensions. -/
structure Mat where
  id : Nat
  cols : Nat
  rows : Nat
deriving DecidableEq, Repr

/-- A wrapped `cv.MatVector`: its buffer identifier and the vertex count
of each contour it stores (the payload the opaque extraction produced). -/
structure MatVec where
  id : Nat
  sizes : List Nat
deriving DecidableEq, Repr

/-- The `size()` method of a `cv.MatVector`. -/
def matVecSize (v : MatVec) : M Nat :=
  mbind (requireLive v.id) fun _ => mret v.sizes.length

/-- The `get(i)` method of a `cv.MatVector`: returns a freshly allocated
`cv.Mat` handle (the source deletes it with `cnt.delete()`).  A contour
mat is N×1, so `cols = 1` and `rows` is the vertex count. -/
def matVecGet (v : MatVec) (i : Nat) : M Mat :=
  mbind (requireLive v.id) fun _ =>
  mbind allocId fun id =>
  mret ⟨id, 1, v.sizes.getD i 0⟩

/-- The `clone()` method of a `cv.Mat` (`const dst = src.clone();`). -/
def cloneMat (m : Mat) : M Mat :=
  mbind (requireLive m.id) fun _ =>
  mbind allocId fun id =>
  mret ⟨id, m.cols, m.rows⟩

/-- Embedding of `downscaleIfNeeded(src, maxDim = 1200)` (page.js lines
6-17).  `Math.max`, the floating-point scale and `Math.round` are
modelled over `ℚ` (`round x = ⌊x + 1/2⌋`, exactly `Math.round`). -/
def downscaleIfNeeded (src : Mat) (maxDim : Nat) : M Mat :=
  let w := src.cols
  let h := src.rows
  let maxSide := max w h
  if maxSide ≤ maxDim then mret src
  else
    let scale : ℚ := (maxDim : ℚ) / (maxSide : ℚ)
    let dw := (round ((w : ℚ) * scale)).toNat
    let dh := (round ((h : ℚ) * scale)).toNat
    mbind allocId fun rid =>            -- const resized = new cv.Mat();
    mbind cvCall fun _ =>               -- cv.resize(src, resized, dsize, 0, 0, cv.INTER_AREA);
    mbind (deleteBuf src.id) fun _ =>   -- src.delete();
    mret ⟨rid, dw, dh⟩

/-- Effects of drawing one sampled marker (page.js 104-106): two
`cnt.intPtr(j, 0)` method calls followed by `cv.circle(dst, ...)`. -/
def drawOne (cnt : Mat) (_j : Nat) : M Unit :=
  mbind (requireLive cnt.id) fun _ =>
  mbind (requireLive cnt.id) fun _ =>
  cvCall

def mforM {α : Type} (l : List α) (f : α → M Unit) : M Unit :=
  match l with
  | [] => mret ()
  | a :: t => mbind (f a) fun _ => mforM t f

/-- Effects of the per-contour marker loop: the pure control behaviour is
`plotGo` (see `plotDrawn`); each drawn index performs `drawOne`. -/
def drawMarkers (cnt : Mat) (step : Int) : M Unit :=
  mforM (plotDrawn cnt.rows step) (drawOne cnt)

/-- The per-contour loop of `runContours` (page.js 97-110):

    for (let i = 0; i < contours.size(); i++) {
      const cnt = contours.get(i);
      cv.drawContours(dst, contours, i, new cv.Scalar(0,255,0,255), 2);
      let plotted = 0;
      for (let j = 0; j < cnt.rows; j += stride) { ... }
      cnt.delete();
    }

The guard evaluates `contours.size()` on every iteration (including the
final failing test); when that call succeeds its value is
`vec.sizes.length`, which the embedded guard compares against. -/
def contourLoop (vec : MatVec) (step : Int) (i : Nat) : M Unit :=
  mbind (matVecSize vec) fun _n =>
  if _h : i < vec.sizes.length then
    mbind (matVecGet vec i) fun cnt =>
    mbind cvCall fun _ =>
    mbind (drawMarkers cnt step) fun _ =>
    mbind (deleteBuf cnt.id) fun _ =>
    contourLoop vec step (i + 1)
  else mret ()
termination_by vec.sizes.length - i
decreasing_by omega

/-- Status messages set by `setStatus`. -/
inductive Status
  | imageLoaded
  | pleaseUpload
  | processing
  | done (n : Nat)
  | procError (msg : String)
deriving DecidableEq, Repr

/-- The exact strings the source passes to `setStatus`. -/
def statusText : Status → String
  | Status.imageLoaded =>
      "Image loaded. Click " ++ String.singleton (Char.ofNat 39)
        ++ "Detect Contours" ++ String.singleton (Char.ofNat 39) ++ "."
  | Status.pleaseUpload => "Please upload an image first."
  | Status.processing => "Processing..."
  | Status.done n => "Done. Contours found: " ++ toString n
  | Status.procError m => "Processing error: " ++ m

/-- Body of the `try` block of `runContours` (page.js 73-124), for an
image whose decoded size is `w`×`h` and whose extraction stage finds
contours with vertex counts `sizes`.  The thresholds do not influence the
embedded observables (the contour result is the `sizes` parameter), but
their `cv.Canny` call is a library call like any other. -/
def tryBody (w h : Nat) (sizes : List Nat) (step _canny1 _canny2 : Int) :
    M Status :=
  mbind cvCall fun _ =>                  -- let src = cv.imread(imgEl);
  mbind allocId fun srcId =>
  mbind (downscaleIfNeeded ⟨srcId, w, h⟩ 1200) fun src =>
  mbind (cloneMat src) fun dst =>        -- const dst = src.clone();
  mbind allocId fun grayId =>            -- const gray = new cv.Mat();
  mbind cvCall fun _ =>                  -- cv.cvtColor(src, gray, cv.COLOR_RGBA2GRAY);
  mbind allocId fun blurId =>            -- const blur = new cv.Mat();
  mbind cvCall fun _ =>                  -- cv.GaussianBlur(gray, blur, new cv.Size(5,5), 0);
  mbind allocId fun edgesId =>           -- const edges = new cv.Mat();
  mbind cvCall fun _ =>                  -- cv.Canny(blur, edges, Number(canny1), Number(canny2));
  mbind allocId fun vecId =>             -- const contours = new cv.MatVector();
  mbind allocId fun hierId =>            -- const hierarchy = new cv.Mat();
  mbind cvCall fun _ =>                  -- cv.findContours(edges, contours, hierarchy, ...);
  mbind (contourLoop ⟨vecId, sizes⟩ step 0) fun _ =>
  mbind cvCall fun _ =>                  -- cv.imshow(canvasEl, dst);  (canvas resize is pure)
  mbind (deleteBuf src.id) fun _ =>      -- src.delete();
  mbind (deleteBuf dst.id) fun _ =>      -- dst.delete();
  mbind (deleteBuf grayId) fun _ =>      -- gray.delete();
  mbind (deleteBuf blurId) fun _ =>      -- blur.delete();
  mbind (deleteBuf edgesId) fun _ =>     -- edges.delete();
  mbind (deleteBuf vecId) fun _ =>       -- contours.delete();
  mbind (deleteBuf hierId) fun _ =>      -- hierarchy.delete();
  mbind (matVecSize ⟨vecId, sizes⟩) fun n =>
  mret (Status.done n)                   -- setStatus(`Done. Contours found: ${contours.size()}`)

/-- Initial state of one dispatched pipeline run. -/
def initSt (failAt : Option Nat) : St := ⟨0, [], [], 0, failAt⟩

/-- Embedding of the `runContours` handler (page.js 58-131).  Returns the
sequence of `setStatus` updates the invocation performs and the
buffer-event trace of the dispatched pipeline run.  `ready` is the
readiness flag, `hasImg` the truthiness of `imgRef.current?.src`. -/
def runContours (ready hasImg : Bool) (w h : Nat) (sizes : List Nat)
    (step canny1 canny2 : Int) (failAt : Option Nat) :
    List Status × List Ev :=
  if !ready then ([], [])                           -- if (!ready) return;
  else if !hasImg then ([Status.pleaseUpload], [])  -- "Please upload an image first."
  else
    match tryBody w h sizes step canny1 canny2 (initSt failAt) with
    | Except.ok (st, s1) => ([Status.processing, st], s1.trace)
    | Except.error (s1, msg) =>
        ([Status.processing, Status.procError msg], s1.trace)

/-- Object-URL event performed by the browser calls
`URL.createObjectURL` / `URL.revokeObjectURL`. -/
inductive UrlEv
  | create (u : Nat)
  | revoke (u : Nat)
deriving DecidableEq, Repr

/-- State of the component's object-URL handling: `current` is
`objectUrlRef.current`, `nextUrl` a fresh-name supply for created URLs,
and `liveList` the URLs created and not yet revoked (the browser-side
registry, recorded to express liveness). -/
structure UrlSt where
  current : Option Nat
  nextUrl : Nat
  liveList : List Nat
deriving DecidableEq, Repr

/-- Component mount state: no object URL held. -/
def initU : UrlSt := ⟨none, 0, []⟩

/-- Embedding of the `onFile` handler (page.js 45-56).  `hasFile` is the
truthiness of `e.target.files?.[0]`.  On a successful selection it first
revokes the previously held URL (if any), then creates and stores a fresh
one, then sets the image-loaded status; an empty selection returns before
doing anything. -/
def onFile (hasFile : Bool) (st : UrlSt) : UrlSt × List UrlEv × Option Status :=
  if !hasFile then (st, [], none)       -- if (!file) return;
  else
    let revoked : List UrlEv :=
      match st.current with             -- if (objectUrlRef.current) URL.revokeObjectURL(...);
      | some u => [UrlEv.revoke u]
      | none => []
    let live1 : List Nat :=
      match st.current with
      | some u => st.liveList.erase u
      | none => st.liveList
    ( ⟨some st.nextUrl, st.nextUrl + 1, st.nextUrl :: live1⟩,
      revoked ++ [UrlEv.create st.nextUrl],  -- const url = URL.createObjectURL(file);
      some Status.imageLoaded )              -- setStatus("Image loaded. ...");

/-- Embedding of the `useEffect` cleanup (page.js 36-42): on teardown the
held URL, if any, is revoked and the ref cleared. -/
def teardown (st : UrlSt) : UrlSt × List UrlEv :=
  match st.current with
  | some u => (⟨none, st.nextUrl, st.liveList.erase u⟩, [UrlEv.revoke u])
  | none => (st, [])

/-- A sequence of upload events (`true` = a file was selected, `false` =
empty selection), run from a given state; collects the object-URL events. -/
def runUploads (files : List Bool) (st : UrlSt) : UrlSt × List UrlEv :=
  match files with
  | [] => (st, [])
  | b :: t =>
    let r1 := onFile b st
    let r2 := runUploads t r1.1
    (r2.1, r1.2.1 ++ r2.2)

/-- Identifiers of the buffers allocated in a trace, in order. -/
def allocIds (tr : List Ev) : List Nat :=
  tr.filterMap fun e =>
    match e with
    | Ev.alloc i => some i
    | Ev.release _ => none

/-- Identifiers of the buffers released in a trace, in order. -/
def releaseIds (tr : List Ev) : List Nat :=
  tr.filterMap fun e =>
    match e with
    | Ev.release i => some i
    | Ev.alloc _ => none

/-- Derived closed form: the trace block of the per-contour loop, one
alloc/release pair per processed contour, with consecutive fresh ids
starting at `n`. -/
def pairTrace (n : Nat) : Nat → List Ev
  | 0 => []
  | Nat.succ k => Ev.alloc n :: Ev.release n :: pairTrace (n + 1) k

/-- Derived closed form: the complete buffer trace of a pipeline run on a
`w`×`h` image finding `L` contours, when no vision-library call fails. -/
def fullTrace (w h L : Nat) : List Ev :=
  if max w h ≤ 1200 then
    [Ev.alloc 0, Ev.alloc 1, Ev.alloc 2, Ev.alloc 3, Ev.alloc 4,
     Ev.alloc 5, Ev.alloc 6]
     ++ pairTrace 7 L
     ++ [Ev.release 0, Ev.release 1, Ev.release 2, Ev.release 3,
         Ev.release 4, Ev.release 5, Ev.release 6]
  else
    [Ev.alloc 0, Ev.alloc 1, Ev.release 0, Ev.alloc 2, Ev.alloc 3,
     Ev.alloc 4, Ev.alloc 5, Ev.alloc 6, Ev.alloc 7]
     ++ pairTrace 8 L
     ++ [Ev.release 1, Ev.release 2, Ev.release 3, Ev.release 4,
         Ev.release 5, Ev.release 6, Ev.release 7]

/-- Derived closed form of the width `downscaleIfNeeded` produces at
`maxDim = 1200` (the source expression `Math.round(w * scale)`). -/
def dsW (w h : Nat) : Nat :=
  (round ((w : ℚ) * ((1200 : ℚ) / ((max w h : Nat) : ℚ)))).toNat

/-- Derived closed form of the height `downscaleIfNeeded` produces at
`maxDim = 1200` (the source expression `Math.round(h * scale)`). -/
def dsH (w h : Nat) : Nat :=
  (round ((h : ℚ) * ((1200 : ℚ) / ((max w h : Nat) : ℚ)))).toNat

/-! ## Lemmas about the marker-sampling loop -/

theorem divCeil_zero (s : Nat) (hs : 1 ≤ s) : divCeil 0 s = 0 := by
  unfold divCeil
  exact Nat.div_eq_of_lt (by omega)

theorem divCeil_succ (x s : Nat) (hs : 1 ≤ s) (hx : 1 ≤ x) :
    divCeil x s = divCeil (x - s) s + 1 := by
  unfold divCeil
  rcases le_or_lt x s with h | h
  · have h0 : x - s = 0 := by omega
    have h2 : (x + s - 1) / s = 1 := Nat.div_eq_of_lt_le (by omega) (by omega)
    have h1 : (0 + s - 1) / s = 0 := Nat.div_eq_of_lt (by omega)
    rw [h0]
    omega
  · have h1 : x + s - 1 = (x - 1) + s := by omega
    have h2 : (x - s) + s - 1 = x - 1 := by omega
    rw [h1, h2, Nat.add_div_right _ (by omega)]

theorem divCeil_one (x : Nat) : divCeil x 1 = x := by
  unfold divCeil
  simp

theorem plotGo_length (rows stride : Nat) (hs : 1 ≤ stride) :
    ∀ j p, (plotGo rows stride hs j p).length ≤ rows - j := by
  intro j p
  induction j, p using plotGo.induct rows stride hs with
  | case1 j p hj hp => rw [plotGo]; simp [hj, hp]; omega
  | case2 j p hj hp ih => rw [plotGo]; simp [hj, hp]; omega
  | case3 j p hj => rw [plotGo]; simp [hj]

theorem plotGo_drawn (rows stride : Nat) (hs : 1 ≤ stride) :
    ∀ j p, p ≤ 3001 →
      ((plotGo rows stride hs j p).filter (fun q => q.2)).map (fun q => q.1)
        = (List.range (min (divCeil (rows - j) stride) (3001 - p))).map
            (fun k => j + k * stride) := by
  intro j p
  induction j, p using plotGo.induct rows stride hs with
  | case1 j p hj hp =>
      intro hple
      have hp0 : p = 3001 := by omega
      rw [plotGo]
      simp [hj, hp, hp0]
  | case2 j p hj hp ih =>
      intro hple
      have h1 : divCeil (rows - j) stride
          = divCeil (rows - (j + stride)) stride + 1 := by
        have hd := divCeil_succ (rows - j) stride hs (by omega)
        have he : rows - j - stride = rows - (j + stride) := by omega
        rw [he] at hd
        exact hd
      have h2 : min (divCeil (rows - j) stride) (3001 - p)
          = min (divCeil (rows - (j + stride)) stride) (3001 - (p + 1)) + 1 := by
        rw [h1]; omega
      rw [plotGo, dif_pos hj, if_neg hp,
          List.filter_cons_of_pos rfl, List.map_cons, ih (by omega),
          h2, List.range_succ_eq_map, List.map_cons, List.map_map]
      have hf : ((fun k => j + k * stride) ∘ Nat.succ)
          = (fun k => j + stride + k * stride) := by
        funext k
        simp [Nat.succ_eq_add_one]
        ring
      rw [hf]
      simp
  | case3 j p hj =>
      intro hple
      rw [plotGo]
      have h0 : rows - j = 0 := by omega
      simp [hj, h0, divCeil_zero stride hs]

theorem plotDrawn_eq (rows : Nat) (step : Int) :
    plotDrawn rows step
      = (List.range (min (divCeil rows (strideOf step)) 3001)).map
          (fun k => k * strideOf step) := by
  unfold plotDrawn plotList
  rw [plotGo_drawn rows (strideOf step) (strideOf_pos step) 0 0 (by omega)]
  simp

theorem markerCount_eq (rows : Nat) (step : Int) :
    markerCount rows step = min (divCeil rows (strideOf step)) 3001 := by
  unfold markerCount
  rw [plotDrawn_eq]
  simp

/-- Claim C2 (code_bug evaluation).  The claim says at most 3000 markers
are drawn per contour; on a contour with 3002 vertices at stride 1 the
loop draws 3001 markers — the cap check `plotted++ > MAX_PLOT_POINTS`
tests the post-incremented counter one draw too late, so the constant
`MAX_PLOT_POINTS = 3000` is exceeded by one. -/
theorem c2_marker_cap_exceeded :
    markerCount 3002 1 = 3001 ∧ 3000 < markerCount 3002 1 := by
  have h : markerCount 3002 1 = 3001 := by
    rw [markerCount_eq]
    have hs : strideOf 1 = 1 := by decide
    rw [hs, divCeil_one]
    omega
  exact ⟨h, by omega⟩

/-- Claim C6 (confirmed).  The marker loop considers exactly the indices
`0, s, 2s, ...` for stride `s = strideOf step`: the drawn indices are the
first `markerCount rows step` multiples of `s` in order, and at stride 1
on any contour within the cap every vertex index is drawn, not a
subsample. -/
theorem c6_stride_sampling (rows : Nat) (step : Int) :
    plotDrawn rows step
      = (List.range (markerCount rows step)).map (fun k => k * strideOf step)
    ∧ (rows ≤ 3000 → plotDrawn rows 1 = List.range rows) := by
  constructor
  · rw [plotDrawn_eq, markerCount_eq]
  · intro hr
    rw [plotDrawn_eq]
    have hs : strideOf 1 = 1 := by decide
    rw [hs, divCeil_one]
    have hm : min rows 3001 = rows := by omega
    rw [hm]
    simp

/-- Witness for C6: at stride 1 a 5-vertex contour has all five vertices
drawn. -/
theorem c6_stride_sampling_witness :
    plotDrawn 5 (1 : Int) = List.range 5 :=
  (c6_stride_sampling 5 1).2 (by omega)

/-- Claim C10 (confirmed).  The effective stride `Math.max(1, Number(step))`
is at least 1 for every integer slider value (including 0 and negatives),
so the marker loop advances its index by at least 1 per iteration and its
body is entered at most `rows` times. -/
theorem c10_stride_terminates (step : Int) (rows : Nat) :
    1 ≤ strideOf step ∧ iterCount rows step ≤ rows := by
  refine ⟨strideOf_pos step, ?_⟩
  unfold iterCount plotList
  have h := plotGo_length rows (strideOf step) (strideOf_pos step) 0 0
  omega

/-! ## Status handling and object-URL lifecycle -/

/-- Claim C7 (confirmed).  Triggering detection with the capability ready
but no image uploaded sets exactly the status
"Please upload an image first.", performs no buffer event, and never
dispatches the pipeline (no processing status either). -/
theorem c7_no_image_status (w h : Nat) (sizes : List Nat)
    (step canny1 canny2 : Int) (failAt : Option Nat) :
    runContours true false w h sizes step canny1 canny2 failAt
      = ([Status.pleaseUpload], [])
    ∧ statusText Status.pleaseUpload = "Please upload an image first." :=
  ⟨rfl, rfl⟩

/-- Claim C8 (confirmed).  Triggering detection before the vision
capability is ready performs no status update and no buffer event, and an
upload event with an empty file selection leaves the URL state untouched,
creates/revokes nothing and sets no status. -/
theorem c8_not_ready_and_empty_upload_noop (hasImg : Bool) (w h : Nat)
    (sizes : List Nat) (step canny1 canny2 : Int) (failAt : Option Nat)
    (st : UrlSt) :
    runContours false hasImg w h sizes step canny1 canny2 failAt = ([], [])
    ∧ onFile false st = (st, [], none) :=
  ⟨rfl, rfl⟩

theorem runUploads_inv (files : List Bool) (st : UrlSt)
    (hinv : st.liveList = st.current.toList) :
    ((runUploads files st).1).liveList = ((runUploads files st).1).current.toList := by
  induction files generalizing st with
  | nil => simpa [runUploads]
  | cons b t ih =>
      rw [runUploads]
      apply ih
      cases b with
      | false => simpa [onFile]
      | true =>
          cases hcur : st.current with
          | none => simp [onFile, hcur, hinv]
          | some u => simp [onFile, hcur, hinv]

/-- Claim C9 (confirmed).  Every successful upload first revokes the
previously held object URL and only then creates and stores the fresh
one; after any sequence of upload events at most one object URL is live;
and teardown revokes the held URL, leaving none live. -/
theorem c9_object_url_lifecycle :
    (∀ st : UrlSt, ∀ u : Nat, st.current = some u →
        (onFile true st).2.1 = [UrlEv.revoke u, UrlEv.create st.nextUrl])
    ∧ (∀ files : List Bool, ((runUploads files initU).1).liveList.length ≤ 1)
    ∧ (∀ files : List Bool,
        ((teardown (runUploads files initU).1).1).liveList = []) := by
  refine ⟨?_, ?_, ?_⟩
  · intro st u hc
    simp [onFile, hc]
  · intro files
    have h := runUploads_inv files initU rfl
    rw [h]
    cases ((runUploads files initU).1).current <;> simp
  · intro files
    have h := runUploads_inv files initU rfl
    unfold teardown
    cases hcur : ((runUploads files initU).1).current with
    | none => rw [hcur] at h; simpa using h
    | some u =>
        rw [hcur] at h
        simp only [Option.toList] at h
        simp [h]

/-- Witness for C9: a second upload while URL 0 is held revokes 0 before
creating URL 1. -/
theorem c9_object_url_lifecycle_witness :
    (onFile true ⟨some 0, 1, [0]⟩).2.1 = [UrlEv.revoke 0, UrlEv.create 1] :=
  c9_object_url_lifecycle.1 ⟨some 0, 1, [0]⟩ 0 rfl

/-! ## The downscaler -/

theorem round_q_mono {x y : ℚ} (h : x ≤ y) : round x ≤ round y := by
  rw [round_eq, round_eq]
  exact Int.floor_mono (by linarith)

theorem ds_side (a b : Nat) (hab : a ≤ b) (hb : 1200 < b) :
    round ((b:ℚ) * ((1200:ℚ) / (b:ℚ))) = 1200
    ∧ 0 ≤ round ((a:ℚ) * ((1200:ℚ) / (b:ℚ)))
    ∧ round ((a:ℚ) * ((1200:ℚ) / (b:ℚ))) ≤ 1200
    ∧ round ((a:ℚ) * ((1200:ℚ) / (b:ℚ))) ≤ (a : ℤ) := by
  have hb0 : ((b:ℕ):ℚ) ≠ 0 := Nat.cast_ne_zero.2 (by omega)
  have hbpos : (0:ℚ) < (b:ℕ) := by
    have : (0:ℕ) < b := by omega
    exact_mod_cast this
  have hbig : (b:ℚ) * ((1200:ℚ) / (b:ℚ)) = 1200 := by field_simp
  have hba : ((a:ℕ):ℚ) ≤ ((b:ℕ):ℚ) := by exact_mod_cast hab
  have hsc : (0:ℚ) ≤ (1200:ℚ) / (b:ℚ) := by positivity
  have hfirst : round ((b:ℚ) * ((1200:ℚ) / (b:ℚ))) = 1200 := by
    rw [hbig]; simp [round_ofNat]
  refine ⟨hfirst, ?_, ?_, ?_⟩
  · have h0 : (0:ℚ) ≤ (a:ℚ) * ((1200:ℚ) / (b:ℚ)) := by positivity
    have := round_q_mono h0
    simpa using this
  · have hle : (a:ℚ) * ((1200:ℚ) / (b:ℚ)) ≤ (b:ℚ) * ((1200:ℚ) / (b:ℚ)) :=
      mul_le_mul_of_nonneg_right hba hsc
    have := round_q_mono hle
    rw [hfirst] at this
    exact this
  · have hs1 : (1200:ℚ) / (b:ℚ) ≤ 1 := by
      rw [div_le_one hbpos]
      exact_mod_cast (by omega : (1200:ℕ) ≤ b)
    have hle : (a:ℚ) * ((1200:ℚ) / (b:ℚ)) ≤ (a:ℚ) :=
      mul_le_of_le_one_right (by positivity) hs1
    have := round_q_mono hle
    rwa [round_natCast] at this

theorem ds_dims (w h : Nat) (hm : 1200 < max w h) :
    max (dsW w h) (dsH w h) = 1200
    ∧ dsW w h ≤ w ∧ dsH w h ≤ h
    ∧ |((dsW w h : ℚ)) - (w : ℚ) * ((1200 : ℚ) / ((max w h : Nat) : ℚ))| ≤ 1/2
    ∧ |((dsH w h : ℚ)) - (h : ℚ) * ((1200 : ℚ) / ((max w h : Nat) : ℚ))| ≤ 1/2 := by
  have habs : ∀ x : ℚ, 0 ≤ round x → |(((round x).toNat : ℚ)) - x| ≤ 1/2 := by
    intro x hx
    have hc : (((round x).toNat : ℤ) : ℚ) = ((round x : ℤ) : ℚ) := by
      exact_mod_cast congrArg (fun z : ℤ => (z : ℚ)) (Int.toNat_of_nonneg hx)
    push_cast at hc
    rw [hc, abs_sub_comm]
    exact abs_sub_round x
  rcases le_total h w with hhw | hwh
  · have hmx : max w h = w := max_eq_left hhw
    have hb : 1200 < w := by omega
    obtain ⟨h1, h2, h3, h4⟩ := ds_side h w hhw hb
    obtain ⟨_, h2w, _, h4w⟩ := ds_side w w le_rfl hb
    unfold dsW dsH
    rw [hmx]
    have hW : (round ((w:ℚ) * ((1200:ℚ) / (w:ℚ)))).toNat = 1200 := by rw [h1]; rfl
    refine ⟨?_, ?_, ?_, ?_, ?_⟩
    · rw [hW]
      have : (round ((h:ℚ) * ((1200:ℚ) / (w:ℚ)))).toNat ≤ 1200 := by omega
      omega
    · rw [hW]; omega
    · have : (round ((h:ℚ) * ((1200:ℚ) / (w:ℚ)))).toNat ≤ h := by omega
      exact this
    · exact habs _ h2w
    · exact habs _ h2
  · have hmx : max w h = h := max_eq_right hwh
    have hb : 1200 < h := by omega
    obtain ⟨h1, h2, h3, h4⟩ := ds_side w h hwh hb
    obtain ⟨_, h2h, _, h4h⟩ := ds_side h h le_rfl hb
    unfold dsW dsH
    rw [hmx]
    have hH : (round ((h:ℚ) * ((1200:ℚ) / (h:ℚ)))).toNat = 1200 := by rw [h1]; rfl
    refine ⟨?_, ?_, ?_, ?_, ?_⟩
    · rw [hH]
      have : (round ((w:ℚ) * ((1200:ℚ) / (h:ℚ)))).toNat ≤ 1200 := by omega
      omega
    · have : (round ((w:ℚ) * ((1200:ℚ) / (h:ℚ)))).toNat ≤ w := by omega
      exact this
    · rw [hH]; omega
    · exact habs _ h2
    · exact habs _ h2h

/-- Claim C4 (confirmed).  On an image whose larger side exceeds 1200 the
downscaler allocates one new buffer, issues the resize call, releases the
original, and returns a buffer of dimensions `round(w*scale)` ×
`round(h*scale)` with `scale = 1200 / max(w,h)`; the larger output side
equals 1200 exactly, neither dimension grows, and each output dimension
is within 1/2 of the exactly scaled value (aspect ratio preserved to
within rounding). -/
theorem c4_downscale_large_image (src : Mat) (s : St)
    (hm : 1200 < max src.cols src.rows) (hf : s.failAt = none)
    (hl : src.id ∈ s.live) :
    downscaleIfNeeded src 1200 s
      = Except.ok ((⟨s.nextId, dsW src.cols src.rows, dsH src.cols src.rows⟩ : Mat),
          { s with nextId := s.nextId + 1,
                   live := (s.nextId :: s.live).erase src.id,
                   trace := s.trace ++ [Ev.alloc s.nextId, Ev.release src.id],
                   callNo := s.callNo + 1 })
    ∧ max (dsW src.cols src.rows) (dsH src.cols src.rows) = 1200
    ∧ dsW src.cols src.rows ≤ src.cols
    ∧ dsH src.cols src.rows ≤ src.rows
    ∧ |((dsW src.cols src.rows : ℚ))
        - (src.cols : ℚ) * ((1200 : ℚ) / ((max src.cols src.rows : Nat) : ℚ))| ≤ 1/2
    ∧ |((dsH src.cols src.rows : ℚ))
        - (src.rows : ℚ) * ((1200 : ℚ) / ((max src.cols src.rows : Nat) : ℚ))| ≤ 1/2 := by
  obtain ⟨d1, d2, d3, d4, d5⟩ := ds_dims src.cols src.rows hm
  refine ⟨?_, d1, d2, d3, d4, d5⟩
  have hnot : ¬ (max src.cols src.rows ≤ 1200) := by omega
  simp [downscaleIfNeeded, mbind, mret, allocId, cvCall, deleteBuf,
        dsW, dsH, hnot, hf, hl]

/-- Witness for C4: the spec scenario — a 2000×1000 input produces a
1200×600 output, releasing the original buffer. -/
theorem c4_downscale_large_image_witness :
    1200 < max 2000 1000
    ∧ dsW 2000 1000 = 1200 ∧ dsH 2000 1000 = 600
    ∧ downscaleIfNeeded ⟨0, 2000, 1000⟩ 1200 ⟨1, [0], [], 0, none⟩
        = Except.ok ((⟨1, dsW 2000 1000, dsH 2000 1000⟩ : Mat),
            ⟨2, [1], [Ev.alloc 1, Ev.release 0], 1, none⟩) := by
  have happ := c4_downscale_large_image ⟨0, 2000, 1000⟩ ⟨1, [0], [], 0, none⟩
    (by decide) rfl (by decide)
  refine ⟨by omega, ?_, ?_, ?_⟩
  · unfold dsW
    have h1 : ((2000:ℕ) : ℚ) * ((1200 : ℚ) / ((max 2000 1000 : Nat) : ℚ)) = 1200 := by
      norm_num
    rw [h1]
    simp [round_ofNat]
  · unfold dsH
    have h1 : ((1000:ℕ) : ℚ) * ((1200 : ℚ) / ((max 2000 1000 : Nat) : ℚ)) = 600 := by
      norm_num
    rw [h1]
    simp [round_ofNat]
  · simpa using happ.1

/-- Claim C5 (confirmed).  On an image whose larger side is at most 1200
the downscaler returns the input buffer itself and leaves the state
untouched: no allocation, no library call (`callNo` unchanged), no
release. -/
theorem c5_downscale_small_image_identity (src : Mat) (s : St)
    (hm : max src.cols src.rows ≤ 1200) :
    downscaleIfNeeded src 1200 s = Except.ok (src, s) := by
  simp [downscaleIfNeeded, mret, hm]

/-- Witness for C5: a 100×50 image passes through untouched. -/
theorem c5_downscale_small_image_identity_witness :
    downscaleIfNeeded ⟨0, 100, 50⟩ 1200 (initSt none)
      = Except.ok ((⟨0, 100, 50⟩ : Mat), initSt none) :=
  c5_downscale_small_image_identity ⟨0, 100, 50⟩ (initSt none) (by decide)

/-! ## Symbolic execution of the pipeline body -/

theorem mbind_ok {α β : Type} {m : M α} {f : α → M β} {s s1 : St} {a : α}
    (hm : m s = Except.ok (a, s1)) : mbind m f s = f a s1 := by
  unfold mbind
  rw [hm]

theorem mbind_error {α β : Type} {m : M α} {f : α → M β} {s : St} {e : Err}
    (hm : m s = Except.error e) : mbind m f s = Except.error e := by
  unfold mbind
  rw [hm]

theorem cvCall_ok (s : St) (hf : s.failAt = none) :
    cvCall s = Except.ok ((), { s with callNo := s.callNo + 1 }) := by
  unfold cvCall
  rw [hf]
  simp

theorem requireLive_ok (id : Nat) (s : St) (hl : id ∈ s.live) :
    requireLive id s = Except.ok ((), s) := by
  unfold requireLive
  rw [if_pos hl]

theorem requireLive_error (id : Nat) (s : St) (hl : id ∉ s.live) :
    requireLive id s = Except.error (s, embindMsg) := by
  unfold requireLive
  rw [if_neg hl]

theorem deleteBuf_ok (id : Nat) (s : St) (hl : id ∈ s.live) :
    deleteBuf id s = Except.ok ((),
      { s with live := s.live.erase id, trace := s.trace ++ [Ev.release id] }) := by
  unfold deleteBuf
  rw [if_pos hl]

theorem drawOne_ok (cnt : Mat) (j : Nat) (s : St) (hf : s.failAt = none)
    (hl : cnt.id ∈ s.live) :
    drawOne cnt j s = Except.ok ((), { s with callNo := s.callNo + 1 }) := by
  unfold drawOne
  rw [mbind_ok (requireLive_ok _ _ hl), mbind_ok (requireLive_ok _ _ hl)]
  exact cvCall_ok s hf

theorem mforM_drawOne_ok (cnt : Mat) (js : List Nat) :
    ∀ s : St, s.failAt = none → cnt.id ∈ s.live →
      mforM js (drawOne cnt) s
        = Except.ok ((), { s with callNo := s.callNo + js.length }) := by
  induction js with
  | nil =>
      intro s hf hl
      simp [mforM, mret]
  | cons j t ih =>
      intro s hf hl
      rw [mforM, mbind_ok (drawOne_ok cnt j s hf hl),
          ih { s with callNo := s.callNo + 1 } hf hl]
      have h1 : s.callNo + 1 + t.length = s.callNo + (j :: t).length := by
        simp
        omega
      rw [h1]

theorem drawMarkers_ok (cnt : Mat) (step : Int) (s : St) (hf : s.failAt = none)
    (hl : cnt.id ∈ s.live) :
    drawMarkers cnt step s
      = Except.ok ((),
          { s with callNo := s.callNo + (plotDrawn cnt.rows step).length }) := by
  unfold drawMarkers
  exact mforM_drawOne_ok cnt _ s hf hl

theorem matVecSize_ok (v : MatVec) (s : St) (hl : v.id ∈ s.live) :
    matVecSize v s = Except.ok (v.sizes.length, s) := by
  unfold matVecSize
  rw [mbind_ok (requireLive_ok _ _ hl)]
  rfl

theorem matVecGet_ok (v : MatVec) (i : Nat) (s : St) (hl : v.id ∈ s.live) :
    matVecGet v i s = Except.ok ((⟨s.nextId, 1, v.sizes.getD i 0⟩ : Mat),
      { s with nextId := s.nextId + 1, live := s.nextId :: s.live,
               trace := s.trace ++ [Ev.alloc s.nextId] }) := by
  unfold matVecGet
  rw [mbind_ok (requireLive_ok _ _ hl)]
  rfl

theorem contourLoop_ok (vecId : Nat) (sizes : List Nat) (step : Int) :
    ∀ k i n live tr c0, sizes.length - i = k → vecId ∈ live →
      ∃ c, contourLoop ⟨vecId, sizes⟩ step i ⟨n, live, tr, c0, none⟩
        = Except.ok ((), ⟨n + k, live, tr ++ pairTrace n k, c, none⟩) := by
  intro k
  induction k with
  | zero =>
      intro i n live tr c0 hk hl
      refine ⟨c0, ?_⟩
      rw [contourLoop,
          mbind_ok (matVecSize_ok ⟨vecId, sizes⟩ ⟨n, live, tr, c0, none⟩ hl)]
      try simp only []
      rw [dif_neg (by omega : ¬ i < sizes.length)]
      simp [mret, pairTrace]
  | succ k ih =>
      intro i n live tr c0 hk hl
      have hi : i < sizes.length := by omega
      obtain ⟨c, hc⟩ := ih (i + 1) (n + 1) live
        (tr ++ [Ev.alloc n, Ev.release n])
        (c0 + 1 + (plotDrawn (sizes.getD i 0) step).length)
        (by omega) hl
      refine ⟨c, ?_⟩
      rw [contourLoop,
          mbind_ok (matVecSize_ok ⟨vecId, sizes⟩ ⟨n, live, tr, c0, none⟩ hl)]
      try simp only []
      rw [dif_pos hi]
      rw [mbind_ok (matVecGet_ok ⟨vecId, sizes⟩ i ⟨n, live, tr, c0, none⟩ hl)]
      try simp only []
      rw [mbind_ok (cvCall_ok _ rfl)]
      try simp only []
      rw [mbind_ok (drawMarkers_ok ⟨n, 1, sizes.getD i 0⟩ step _ rfl
            (List.mem_cons_self n live))]
      try simp only []
      rw [mbind_ok (deleteBuf_ok n _ (List.mem_cons_self n live))]
      simp only [List.erase_cons_head, List.append_assoc, List.singleton_append,
                 List.cons_append, List.nil_append]
      rw [hc]
      have h1 : n + 1 + k = n + (k + 1) := by omega
      rw [h1, pairTrace]
      simp [List.append_assoc]

theorem allocId_ok (s : St) :
    allocId s = Except.ok (s.nextId,
      { s with nextId := s.nextId + 1, live := s.nextId :: s.live,
               trace := s.trace ++ [Ev.alloc s.nextId] }) := rfl

theorem cloneMat_ok (m : Mat) (s : St) (hl : m.id ∈ s.live) :
    cloneMat m s = Except.ok ((⟨s.nextId, m.cols, m.rows⟩ : Mat),
      { s with nextId := s.nextId + 1, live := s.nextId :: s.live,
               trace := s.trace ++ [Ev.alloc s.nextId] }) := by
  unfold cloneMat
  rw [mbind_ok (requireLive_ok _ _ hl)]
  rfl

theorem matVecSize_error (v : MatVec) (s : St) (hl : v.id ∉ s.live) :
    matVecSize v s = Except.error (s, embindMsg) := by
  unfold matVecSize
  rw [mbind_error (requireLive_error _ _ hl)]

theorem downscale_small_run (src : Mat) (s : St)
    (hm : max src.cols src.rows ≤ 1200) :
    downscaleIfNeeded src 1200 s = Except.ok (src, s) := by
  simp [downscaleIfNeeded, mret, hm]

theorem downscale_large_run (src : Mat) (s : St)
    (hm : 1200 < max src.cols src.rows) (hf : s.failAt = none)
    (hl : src.id ∈ s.live) :
    downscaleIfNeeded src 1200 s
      = Except.ok ((⟨s.nextId, dsW src.cols src.rows, dsH src.cols src.rows⟩ : Mat),
          { s with nextId := s.nextId + 1,
                   live := (s.nextId :: s.live).erase src.id,
                   trace := s.trace ++ [Ev.alloc s.nextId, Ev.release src.id],
                   callNo := s.callNo + 1 }) := by
  have hnot : ¬ (max src.cols src.rows ≤ 1200) := by omega
  simp [downscaleIfNeeded, mbind, mret, allocId, cvCall, deleteBuf,
        dsW, dsH, hnot, hf, hl]

theorem tryBody_no_failure (w h : Nat) (sizes : List Nat)
    (step canny1 canny2 : Int) :
    ∃ c, tryBody w h sizes step canny1 canny2 (initSt none)
      = Except.error (⟨(if max w h ≤ 1200 then 7 else 8) + sizes.length, [],
          fullTrace w h sizes.length, c, none⟩, embindMsg) := by
  by_cases hmax : max w h ≤ 1200
  · obtain ⟨c, hc⟩ := contourLoop_ok 5 sizes step sizes.length 0 7
      [6, 5, 4, 3, 2, 1, 0]
      [Ev.alloc 0, Ev.alloc 1, Ev.alloc 2, Ev.alloc 3, Ev.alloc 4,
       Ev.alloc 5, Ev.alloc 6] 5 (by omega) (by simp)
    refine ⟨c + 1, ?_⟩
    rw [tryBody]
    rw [mbind_ok (cvCall_ok _ rfl)]; try simp only []
    rw [mbind_ok (allocId_ok _)]; try simp only []
    rw [mbind_ok (downscale_small_run _ _ (by simpa using hmax))]; try simp only []
    rw [mbind_ok (cloneMat_ok _ _ (by simp))]; try simp only []
    rw [mbind_ok (allocId_ok _)]; try simp only []
    rw [mbind_ok (cvCall_ok _ rfl)]; try simp only []
    rw [mbind_ok (allocId_ok _)]; try simp only []
    rw [mbind_ok (cvCall_ok _ rfl)]; try simp only []
    rw [mbind_ok (allocId_ok _)]; try simp only []
    rw [mbind_ok (cvCall_ok _ rfl)]; try simp only []
    rw [mbind_ok (allocId_ok _)]; try simp only []
    rw [mbind_ok (allocId_ok _)]; try simp only []
    rw [mbind_ok (cvCall_ok _ rfl)]; try simp only []
    simp [initSt]
    rw [mbind_ok hc]; try simp only []
    rw [mbind_ok (cvCall_ok _ rfl)]; try simp only []
    rw [mbind_ok (deleteBuf_ok 0 _ (by simp))]; try simp only []
    rw [mbind_ok (deleteBuf_ok 1 _ (by simp))]; try simp only []
    rw [mbind_ok (deleteBuf_ok 2 _ (by simp))]; try simp only []
    rw [mbind_ok (deleteBuf_ok 3 _ (by simp))]; try simp only []
    rw [mbind_ok (deleteBuf_ok 4 _ (by simp))]; try simp only []
    rw [mbind_ok (deleteBuf_ok 5 _ (by simp))]; try simp only []
    rw [mbind_ok (deleteBuf_ok 6 _ (by simp))]; try simp only []
    rw [mbind_error (matVecSize_error _ _ (by simp))]
    have hcond : w ≤ 1200 ∧ h ≤ 1200 := by omega
    simp [fullTrace, hcond, List.append_assoc]
  · obtain ⟨c, hc⟩ := contourLoop_ok 6 sizes step sizes.length 0 8
      [7, 6, 5, 4, 3, 2, 1]
      [Ev.alloc 0, Ev.alloc 1, Ev.release 0, Ev.alloc 2, Ev.alloc 3,
       Ev.alloc 4, Ev.alloc 5, Ev.alloc 6, Ev.alloc 7] 6 (by omega) (by simp)
    refine ⟨c + 1, ?_⟩
    rw [tryBody]
    rw [mbind_ok (cvCall_ok _ rfl)]; try simp only []
    rw [mbind_ok (allocId_ok _)]; try simp only []
    rw [mbind_ok (downscale_large_run _ _ (by simp; omega) rfl (by simp))]
    try simp only []
    rw [mbind_ok (cloneMat_ok _ _ (by simp))]; try simp only []
    rw [mbind_ok (allocId_ok _)]; try simp only []
    rw [mbind_ok (cvCall_ok _ rfl)]; try simp only []
    rw [mbind_ok (allocId_ok _)]; try simp only []
    rw [mbind_ok (cvCall_ok _ rfl)]; try simp only []
    rw [mbind_ok (allocId_ok _)]; try simp only []
    rw [mbind_ok (cvCall_ok _ rfl)]; try simp only []
    rw [mbind_ok (allocId_ok _)]; try simp only []
    rw [mbind_ok (allocId_ok _)]; try simp only []
    rw [mbind_ok (cvCall_ok _ rfl)]; try simp only []
    simp [initSt]
    rw [mbind_ok hc]; try simp only []
    rw [mbind_ok (cvCall_ok _ rfl)]; try simp only []
    rw [mbind_ok (deleteBuf_ok 1 _ (by simp))]; try simp only []
    rw [mbind_ok (deleteBuf_ok 2 _ (by simp))]; try simp only []
    rw [mbind_ok (deleteBuf_ok 3 _ (by simp))]; try simp only []
    rw [mbind_ok (deleteBuf_ok 4 _ (by simp))]; try simp only []
    rw [mbind_ok (deleteBuf_ok 5 _ (by simp))]; try simp only []
    rw [mbind_ok (deleteBuf_ok 6 _ (by simp))]; try simp only []
    rw [mbind_ok (deleteBuf_ok 7 _ (by simp))]; try simp only []
    rw [mbind_error (matVecSize_error _ _ (by simp))]
    have hcond : ¬ (w ≤ 1200 ∧ h ≤ 1200) := by omega
    simp [fullTrace, hcond, List.append_assoc]

theorem allocIds_append (t1 t2 : List Ev) :
    allocIds (t1 ++ t2) = allocIds t1 ++ allocIds t2 := by
  unfold allocIds
  simp [List.filterMap_append]

theorem releaseIds_append (t1 t2 : List Ev) :
    releaseIds (t1 ++ t2) = releaseIds t1 ++ releaseIds t2 := by
  unfold releaseIds
  simp [List.filterMap_append]

theorem allocIds_pairTrace : ∀ (k n : Nat), allocIds (pairTrace n k) = List.range' n k := by
  intro k
  induction k with
  | zero => intro n; rfl
  | succ k ih =>
      intro n
      rw [pairTrace]
      show allocIds (Ev.alloc n :: Ev.release n :: pairTrace (n + 1) k) = _
      rw [List.range'_succ]
      unfold allocIds at ih ⊢
      simp [ih]

theorem releaseIds_pairTrace : ∀ (k n : Nat), releaseIds (pairTrace n k) = List.range' n k := by
  intro k
  induction k with
  | zero => intro n; rfl
  | succ k ih =>
      intro n
      rw [pairTrace]
      show releaseIds (Ev.alloc n :: Ev.release n :: pairTrace (n + 1) k) = _
      rw [List.range'_succ]
      unfold releaseIds at ih ⊢
      simp [ih]

theorem fullTrace_balance (w h L : Nat) :
    ((releaseIds (fullTrace w h L)).Perm (allocIds (fullTrace w h L)))
    ∧ (releaseIds (fullTrace w h L)).Nodup := by
  by_cases hmax : max w h ≤ 1200
  · rw [fullTrace, if_pos hmax]
    rw [allocIds_append, allocIds_append, releaseIds_append, releaseIds_append]
    rw [allocIds_pairTrace, releaseIds_pairTrace]
    show ((releaseIds [Ev.alloc 0, Ev.alloc 1, Ev.alloc 2, Ev.alloc 3, Ev.alloc 4,
            Ev.alloc 5, Ev.alloc 6] ++ _).Perm _) ∧ _
    constructor
    · show (([] : List Nat) ++ (List.range' 7 L ++ [0,1,2,3,4,5,6])).Perm
        ([0,1,2,3,4,5,6] ++ (List.range' 7 L ++ []))
      simp only [List.nil_append, List.append_nil]
      exact List.perm_append_comm
    · show (([] : List Nat) ++ (List.range' 7 L ++ [0,1,2,3,4,5,6])).Nodup
      simp only [List.nil_append]
      rw [List.nodup_append]
      refine ⟨List.nodup_range' _ _, by decide, ?_⟩
      intro a ha hb
      have h1 : 7 ≤ a := (List.mem_range'_1.1 ha).1
      have h2 : a ≤ 6 := by
        simp at hb
        omega
      omega
  · rw [fullTrace, if_neg hmax]
    rw [allocIds_append, allocIds_append, releaseIds_append, releaseIds_append]
    rw [allocIds_pairTrace, releaseIds_pairTrace]
    constructor
    · show (([0] : List Nat) ++ (List.range' 8 L ++ [1,2,3,4,5,6,7])).Perm
        ([0,1,2,3,4,5,6,7] ++ (List.range' 8 L ++ []))
      simp only [List.append_nil, List.cons_append, List.nil_append]
      exact List.Perm.cons 0 List.perm_append_comm
    · show (([0] : List Nat) ++ (List.range' 8 L ++ [1,2,3,4,5,6,7])).Nodup
      simp only [List.cons_append, List.nil_append]
      rw [List.nodup_cons, List.nodup_append]
      refine ⟨?_, List.nodup_range' _ _, by decide, ?_⟩
      · intro hmem
        rw [List.mem_append] at hmem
        rcases hmem with hmem | hmem
        · have := (List.mem_range'_1.1 hmem).1
          omega
        · simp at hmem
      · intro a ha hb
        have h1 : 8 ≤ a := (List.mem_range'_1.1 ha).1
        have h2 : a ≤ 7 := by
          simp at hb
          omega
        omega

theorem runContours_none_trace (w h : Nat) (sizes : List Nat)
    (step canny1 canny2 : Int) :
    runContours true true w h sizes step canny1 canny2 none
      = ([Status.processing, Status.procError embindMsg],
         fullTrace w h sizes.length) := by
  obtain ⟨c, hc⟩ := tryBody_no_failure w h sizes step canny1 canny2
  rw [runContours]
  simp only [Bool.not_true]
  rw [hc]
  simp

/-- Claim C1, amended (corrected).  For a pipeline invocation in which no
vision-library call fails, the released buffer identifiers are a
permutation of the allocated ones — every allocated buffer (source,
clone, grayscale, blur, edges, contour vector, hierarchy and each
retrieved contour) is released exactly once and no identifier is released
twice.  The original both-paths claim is refuted by
`c1_failure_path_leaks_counterexample`: on a failure path the `catch`
block releases nothing, so buffers allocated before the failure leak. -/
theorem c1_success_path_release_balance (w h : Nat) (sizes : List Nat)
    (step canny1 canny2 : Int) :
    ((releaseIds ((runContours true true w h sizes step canny1 canny2 none).2)).Perm
       (allocIds ((runContours true true w h sizes step canny1 canny2 none).2)))
    ∧ (releaseIds ((runContours true true w h sizes step canny1 canny2 none).2)).Nodup := by
  rw [runContours_none_trace]
  exact fullTrace_balance w h sizes.length

/-- Counterexample to claim C1 as stated: a run on a 100×80 image whose
second vision-library call (`cv.cvtColor`) throws has allocated three
buffers (source, clone, grayscale) and released none, so the number of
release calls differs from the number of allocation calls on that
failure path. -/
theorem c1_failure_path_leaks_counterexample :
    ¬ ((releaseIds ((runContours true true 100 80 [] 12 80 160 (some 1)).2)).length
        = (allocIds ((runContours true true 100 80 [] 12 80 160 (some 1)).2)).length) := by
  decide

/-- Claim C3 (code_bug evaluation).  Even when every vision-library call
succeeds, the run never reports the done-with-count status: the final
status line reads `contours.size()` after `contours.delete()`, so the
deleted-object access throws and the status becomes the processing-error
message instead of the contour count. -/
theorem c3_done_status_never_reported (w h : Nat) (sizes : List Nat)
    (step canny1 canny2 : Int) :
    (runContours true true w h sizes step canny1 canny2 none).1
      = [Status.processing, Status.procError embindMsg]
    ∧ statusText (Status.procError embindMsg)
      = "Processing error: Cannot pass deleted object as a pointer" := by
  constructor
  · rw [runContours_none_trace]
  · rfl
